import Mathlib

/-!
Verification of the Lifting Diary ownership-scoped data access layer.

Shallow embedding of the repository's core:

* `src/db/schema.ts` — the four tables (workouts, exercises, workout_exercises, sets),
  embedded as Lean structures; the store is a record of four row lists.
* `src/data/workouts.ts` — the Access-Control Query Layer
  (`getUserWorkouts`, `getUserWorkoutsByDate`, `getUserWorkout`,
  `createWorkout`, `updateWorkout`).
* `src/app/dashboard/workout/new/...` and `src/app/dashboard/workout/[workoutId]/actions.ts`
  — the Mutation Gateway (`createWorkoutAction`, `updateWorkoutAction`) with their
  zod validation schemas.

Modelling conventions:

* Timestamps are `Int` milliseconds since the epoch (one consistent clock; `setHours`
  on a local date becomes flooring to a multiple of 86400000 ms).
* A runtime JavaScript `Date` value, which may be an Invalid Date (NaN time value),
  is `JSDate := Option Int` (`none` = Invalid Date).  After zod validation all
  dates are plain `Int`.
* TypeScript optional/nullable fields use nested `Option`: for a field typed
  `T | null` the value is `Option T` (`none` = null); for `T? : T | null` the
  value is `Option (Option T)` (`none` = key omitted, `some none` = explicit null).
* Effects are explicit: `db.insert`/`db.update` take and return a `Store`;
  the server-assigned id and the current time (`new Date()`) are parameters;
  `await auth()` is an `Option String` parameter (the session's userId);
  an unexpected storage exception is an `Option String` parameter carrying the
  raw error message (`none` = the store operates normally).
-/

/-- Row of the `workouts` table (`src/db/schema.ts`). -/
structure Workout where
  id : String
  userId : String
  name : Option String
  startedAt : Int
  completedAt : Option Int
  createdAt : Int
  updatedAt : Int
deriving Repr, DecidableEq

/-- Row of the `exercises` table. -/
structure Exercise where
  id : String
  userId : String
  name : String
  createdAt : Int
  updatedAt : Int
deriving Repr, DecidableEq

/-- Row of the `workout_exercises` table. -/
structure WorkoutExercise where
  id : String
  workoutId : String
  exerciseId : String
  order : Int
  createdAt : Int
  updatedAt : Int
deriving Repr, DecidableEq

/-- Row of the `sets` table (named `SetRow` to avoid clashing with `Set`).
`weight` is the decimal column, modelled in hundredths. -/
structure SetRow where
  id : String
  workoutExerciseId : String
  setNumber : Int
  reps : Option Int
  weight : Option Int
  createdAt : Int
  updatedAt : Int
deriving Repr, DecidableEq

/-- The relational Entity Store: the four tables, each a list of rows in
insertion order. -/
structure Store where
  workouts : List Workout
  exercises : List Exercise
  workoutExercises : List WorkoutExercise
  sets : List SetRow
deriving Repr, DecidableEq

/-- Nested result shape of drizzle's `with: { exercise: true, sets: ... }`:
a workout-exercise row together with its `exercise` reference and its
`sets` children. -/
structure WorkoutExerciseFull where
  we : WorkoutExercise
  exercise : Option Exercise
  sets : List SetRow
deriving Repr, DecidableEq

/-- Nested result shape of the workout queries: a workout row together with its
`workoutExercises` children. -/
structure WorkoutFull where
  workout : Workout
  workoutExercises : List WorkoutExerciseFull
deriving Repr, DecidableEq

/-! Ordering relations used by the query layer's `orderBy` clauses. -/

/-- Relation for `desc(workouts.startedAt)`: `a` precedes `b` when `a.startedAt ≥ b.startedAt`. -/
def workoutDesc (a b : Workout) : Prop := b.startedAt ≤ a.startedAt

instance : DecidableRel workoutDesc := fun a b => Int.decLe b.startedAt a.startedAt

instance : IsTotal Workout workoutDesc := ⟨fun a b => le_total b.startedAt a.startedAt⟩

instance : IsTrans Workout workoutDesc := ⟨fun _ _ _ h1 h2 => le_trans h2 h1⟩

/-- Relation for `asc(workoutExercises.order)`. -/
def weAsc (a b : WorkoutExercise) : Prop := a.order ≤ b.order

instance : DecidableRel weAsc := fun a b => Int.decLe a.order b.order

instance : IsTotal WorkoutExercise weAsc := ⟨fun a b => le_total a.order b.order⟩

instance : IsTrans WorkoutExercise weAsc := ⟨fun _ _ _ h1 h2 => le_trans h1 h2⟩

/-- Relation for `asc(sets.setNumber)`. -/
def setAsc (a b : SetRow) : Prop := a.setNumber ≤ b.setNumber

instance : DecidableRel setAsc := fun a b => Int.decLe a.setNumber b.setNumber

instance : IsTotal SetRow setAsc := ⟨fun a b => le_total a.setNumber b.setNumber⟩

instance : IsTrans SetRow setAsc := ⟨fun _ _ _ h1 h2 => le_trans h1 h2⟩

/-! Access-Control Query Layer (`src/data/workouts.ts`). -/

/-- The nested `with` clause shared by all three read queries: fetch the
workout's exercise rows ordered ascending by `order`, and for each its
`exercise` reference and its set rows ordered ascending by `setNumber`. -/
def nestWorkout (s : Store) (w : Workout) : WorkoutFull :=
  { workout := w
    workoutExercises :=
      (List.insertionSort weAsc
        (s.workoutExercises.filter (fun we => we.workoutId == w.id))).map
        (fun we =>
          { we := we
            exercise := s.exercises.find? (fun e => e.id == we.exerciseId)
            sets :=
              List.insertionSort setAsc
                (s.sets.filter (fun st => st.workoutExerciseId == we.id)) }) }

/-- Embeds `getUserWorkouts(userId)`: all workouts where `userId` matches, ordered
descending by `startedAt`, with the nested exercise/set tree. -/
def getUserWorkouts (userId : String) (s : Store) : List WorkoutFull :=
  (List.insertionSort workoutDesc
    (s.workouts.filter (fun w => w.userId == userId))).map (nestWorkout s)

/-- Embeds `startOfDay`: `new Date(date)` with `setHours(0, 0, 0, 0)` — the enclosing
local midnight, i.e. the timestamp floored to a multiple of 86400000 ms. -/
def startOfDayMs (t : Int) : Int := 86400000 * Int.fdiv t 86400000

/-- Embeds `endOfDay`: `new Date(date)` with `setHours(23, 59, 59, 999)`. -/
def endOfDayMs (t : Int) : Int := startOfDayMs t + 86399999

/-- Embeds `getUserWorkoutsByDate(userId, date)`: the same `findMany` query as
`getUserWorkouts` (the `where` clause only constrains `userId`; the date range
is applied afterwards in memory on `startedAt`, both endpoints inclusive). -/
def getUserWorkoutsByDate (userId : String) (date : Int) (s : Store) :
    List WorkoutFull :=
  let startOfDay := startOfDayMs date
  let endOfDay := endOfDayMs date
  let userWorkouts :=
    (List.insertionSort workoutDesc
      (s.workouts.filter (fun w => w.userId == userId))).map (nestWorkout s)
  userWorkouts.filter
    (fun wf => startOfDay ≤ wf.workout.startedAt && wf.workout.startedAt ≤ endOfDay)

/-- The combined condition `and(eq(workouts.id, workoutId), eq(workouts.userId, userId))`
shared by `getUserWorkout` and `updateWorkout` ("CRITICAL: Security check"). -/
def workoutMatch (workoutId userId : String) (w : Workout) : Bool :=
  w.id == workoutId && w.userId == userId

/-- Embeds `getUserWorkout(workoutId, userId)`: `findFirst` over
`and(eq(workouts.id, workoutId), eq(workouts.userId, userId))` with the nested
tree; `undefined` (here `none`) when no row matches both conditions. -/
def getUserWorkout (workoutId userId : String) (s : Store) : Option WorkoutFull :=
  (s.workouts.find? (workoutMatch workoutId userId)).map (nestWorkout s)

/-- The `data` argument of `createWorkout`: `{ name: string | null; startedAt: Date }`
(already validated, so the date is a plain timestamp). -/
structure CreateData where
  name : Option String
  startedAt : Int
deriving Repr, DecidableEq

/-- Embeds `createWorkout(data, userId)`: insert a row with `userId` from the
authenticated caller and `completedAt: null`; `id`/`createdAt`/`updatedAt` are
server-assigned (`freshId`, `now`).  Returns the created row and the new store. -/
def createWorkout (data : CreateData) (userId : String) (freshId : String)
    (now : Int) (s : Store) : Workout × Store :=
  let workout : Workout :=
    { id := freshId
      userId := userId
      name := data.name
      startedAt := data.startedAt
      completedAt := none
      createdAt := now
      updatedAt := now }
  (workout, { s with workouts := s.workouts ++ [workout] })

/-- The `data` argument of `updateWorkout`:
`{ name?: string | null; startedAt?: Date; completedAt?: Date | null }`.
Outer `none` = key omitted (field untouched); for the nullable fields
`some none` = explicit null. -/
structure WorkoutPatch where
  name : Option (Option String) := none
  startedAt : Option Int := none
  completedAt : Option (Option Int) := none
deriving Repr, DecidableEq

/-- The `set({...data, updatedAt: new Date()})` clause applied to one row:
fields present in the patch are overwritten, absent ones kept, and
`updatedAt` is always refreshed. -/
def applySet (data : WorkoutPatch) (now : Int) (w : Workout) : Workout :=
  { w with
    name := data.name.getD w.name
    startedAt := data.startedAt.getD w.startedAt
    completedAt := data.completedAt.getD w.completedAt
    updatedAt := now }

/-- Embeds `updateWorkout(workoutId, data, userId)`: update every row matching
`and(eq(workouts.id, workoutId), eq(workouts.userId, userId))`, returning the
first updated row (`undefined`/`none` when no row matched) and the new store. -/
def updateWorkout (workoutId : String) (data : WorkoutPatch) (userId : String)
    (now : Int) (s : Store) : Option Workout × Store :=
  (((s.workouts.filter (workoutMatch workoutId userId)).map (applySet data now)).head?,
   { s with
      workouts := s.workouts.map
        (fun w => if workoutMatch workoutId userId w then applySet data now w else w) })

/-! Mutation Gateway (`createWorkoutAction`, `updateWorkoutAction`). -/

/-- A runtime JavaScript `Date`: `some` its millisecond time value, or `none`
for an Invalid Date (NaN time value). -/
abbrev JSDate := Option Int

/-- A hexadecimal digit, as matched by zod's uuid pattern. -/
def isHexDigit (c : Char) : Bool :=
  ('0' ≤ c && c ≤ '9') || ('a' ≤ c && c ≤ 'f') || ('A' ≤ c && c ≤ 'F')

/-- Embeds `z.string().uuid()`: the 8-4-4-4-12 hexadecimal-groups shape, hyphens at
positions 8, 13, 18 and 23. -/
def isUuid (s : String) : Bool :=
  let cs := s.toList
  cs.length == 36 &&
    cs.enum.all (fun p =>
      if p.1 == 8 || p.1 == 13 || p.1 == 18 || p.1 == 23 then p.2 == '-'
      else isHexDigit p.2)

/-- Field-level issues produced by `z.string().min(1).max(100)` on a present,
non-null `name` value. -/
def nameIssues (nm : Option String) : List String :=
  match nm with
  | none => []
  | some v =>
    (if v.length < 1 then ["name: too short"] else []) ++
    (if v.length > 100 then ["name: too long"] else [])

/-- Argument of `createWorkoutAction`: `{ name: string | null; startedAt: Date }`,
the date possibly invalid at runtime. -/
structure CreateInput where
  name : Option String
  startedAt : JSDate
deriving Repr, DecidableEq

/-- Embeds `createWorkoutSchema.safeParse`: `name` nullable, 1–100 characters when a
string; `startedAt` a valid date.  All field issues are collected. -/
def createWorkoutSchemaParse (input : CreateInput) :
    Except (List String) CreateData :=
  match input.startedAt, nameIssues input.name with
  | some t, [] => .ok { name := input.name, startedAt := t }
  | some _, errs => .error errs
  | none, errs => .error (errs ++ ["startedAt: Start date must be a valid date"])

/-- Argument of `updateWorkoutAction`:
`{ workoutId: string; name?: string | null; startedAt?: Date; completedAt?: Date | null }`.
`extraUserId`/`extraId` model unknown keys a runtime caller may smuggle into the
object; `z.object` strips them during parsing. -/
structure UpdateInput where
  workoutId : String
  name : Option (Option String) := none
  startedAt : Option JSDate := none
  completedAt : Option (Option JSDate) := none
  extraUserId : Option String := none
  extraId : Option String := none
deriving Repr, DecidableEq

/-- Embeds `z.infer<typeof updateWorkoutSchema>`: the validated update payload
(unknown keys stripped, dates known valid). -/
structure UpdateData where
  workoutId : String
  name : Option (Option String)
  startedAt : Option Int
  completedAt : Option (Option Int)
deriving Repr, DecidableEq

/-- Embeds `updateWorkoutSchema.safeParse`: `workoutId` must be a uuid; `name`
optional, nullable, 1–100 characters when a string; `startedAt` optional valid
date; `completedAt` optional, nullable, valid date when present and non-null. -/
def updateWorkoutSchemaParse (input : UpdateInput) :
    Except (List String) UpdateData :=
  let errs :=
    (if isUuid input.workoutId then [] else ["workoutId: Invalid workout ID"]) ++
    (match input.name with
     | none => []
     | some nm => nameIssues nm) ++
    (match input.startedAt with
     | some none => ["startedAt: Start date must be a valid date"]
     | _ => []) ++
    (match input.completedAt with
     | some (some none) => ["completedAt: Invalid date"]
     | _ => [])
  if errs = [] then
    .ok { workoutId := input.workoutId
          name := input.name
          startedAt := input.startedAt.join
          completedAt := input.completedAt.map Option.join }
  else .error errs

/-- Result shape of both server actions:
`{success: true, workout} | {success: false, error, details?}`. -/
inductive ActionResult where
  | success (workout : Workout)
  | failure (error : String) (details : Option (List String))
deriving Repr, DecidableEq

/-- Embeds `createWorkoutAction(input)`: authenticate, validate, then call
`createWorkout` inside try/catch.  `session` is the result of `await auth()`;
`storageFailure` carries the raw message of a storage exception when one is
thrown (`none` = the insert succeeds). -/
def createWorkoutAction (session : Option String) (input : CreateInput)
    (storageFailure : Option String) (freshId : String) (now : Int) (s : Store) :
    ActionResult × Store :=
  match session with
  | none => (.failure "Unauthorized" none, s)
  | some userId =>
    match createWorkoutSchemaParse input with
    | .error d => (.failure "Invalid input" (some d), s)
    | .ok data =>
      match storageFailure with
      | some _ => (.failure "Failed to create workout" none, s)
      | none =>
        let (workout, s') := createWorkout data userId freshId now s
        (.success workout, s')

/-- The `const { workoutId, ...data } = validation.data` destructuring: the
validated fields passed on to `updateWorkout` as its `data` argument. -/
def patchOf (d : UpdateData) : WorkoutPatch :=
  { name := d.name
    startedAt := d.startedAt
    completedAt := d.completedAt }

/-- Embeds `updateWorkoutAction(input)`: authenticate, validate, destructure
`{ workoutId, ...data }`, call `updateWorkout` inside try/catch; an absent
returned row becomes the not-found/no-permission failure value. -/
def updateWorkoutAction (session : Option String) (input : UpdateInput)
    (storageFailure : Option String) (now : Int) (s : Store) :
    ActionResult × Store :=
  match session with
  | none => (.failure "Unauthorized" none, s)
  | some userId =>
    match updateWorkoutSchemaParse input with
    | .error d => (.failure "Invalid input" (some d), s)
    | .ok data =>
      match storageFailure with
      | some _ => (.failure "Failed to update workout" none, s)
      | none =>
        match (updateWorkout data.workoutId (patchOf data) userId now s).1 with
        | none =>
          (.failure "Workout not found or you do not have permission to edit it" none,
           (updateWorkout data.workoutId (patchOf data) userId now s).2)
        | some w =>
          (.success w, (updateWorkout data.workoutId (patchOf data) userId now s).2)

/-- Embeds `name || null` of the dashboard actions file: a missing value and
the empty string both store as null. -/
def emptyToNull (name : Option String) : Option String :=
  match name with
  | none => none
  | some n => if n = "" then none else some n

/-- Embeds the dashboard's FormData `createWorkoutAction` (the `'use server'`
actions file in `src/unnamed/part_000`, imported by the dashboard's
create-workout form).  Unlike the schema-validated gateways it THROWS instead
of returning a failure value — `throw new Error('Unauthorized')` with no
session, `throw new Error('Date is required')` for a missing or empty date
string (`!dateStr`) — and runs no zod validation before inserting.  A thrown
exception is `.error msg`; `parseDate` stands for JavaScript date parsing
(`new Date(dateStr)`), and an unparseable string gives an Invalid Date whose
serialisation for the insert itself throws (`Invalid time value`).  On success
it returns `{ success: true, workoutId: workout.id }` (`.ok` the id). -/
def dashboardCreateWorkoutAction (session : Option String)
    (name dateStr : Option String) (parseDate : String → JSDate)
    (freshId : String) (now : Int) (s : Store) :
    Except String String × Store :=
  match session with
  | none => (.error "Unauthorized", s)
  | some userId =>
    match dateStr with
    | none => (.error "Date is required", s)
    | some ds =>
      if ds = "" then (.error "Date is required", s)
      else
        match parseDate ds with
        | none => (.error "Invalid time value", s)
        | some t =>
          ((createWorkout { name := emptyToNull name, startedAt := t }
              userId freshId now s).1.id |> .ok,
           (createWorkout { name := emptyToNull name, startedAt := t }
              userId freshId now s).2)

/-! Helper lemmas. -/

/-- Primary keys: with distinct ids, a row of `l` sharing `w`'s id is `w`. -/
lemma row_eq_of_id_eq {l : List Workout} (hnodup : (l.map (fun w => w.id)).Nodup)
    {r w : Workout} (hr : r ∈ l) (hw : w ∈ l) (h : r.id = w.id) : r = w :=
  List.inj_on_of_nodup_map hnodup hr hw h

/-- If `w ∈ l` is owned by `A` and `B ≠ A`, the combined id+owner condition for
`(w.id, B)` holds for no row of `l`. -/
lemma workoutMatch_false_of_other_user {l : List Workout} {w : Workout} {A B : String}
    (hnodup : (l.map (fun w => w.id)).Nodup) (hmem : w ∈ l) (hown : w.userId = A)
    (hne : B ≠ A) {r : Workout} (hr : r ∈ l) : workoutMatch w.id B r = false := by
  unfold workoutMatch
  by_contra h
  rw [Bool.not_eq_false, Bool.and_eq_true, beq_iff_eq, beq_iff_eq] at h
  obtain ⟨h1, h2⟩ := h
  have hrw : r = w := row_eq_of_id_eq hnodup hr hmem h1
  subst hrw
  exact hne (h2 ▸ hown)

/-- With distinct ids, the rows matching `(w.id, w.userId)` are exactly `[w]`. -/
lemma filter_workoutMatch_self {l : List Workout} {w : Workout}
    (hnodup : (l.map (fun w => w.id)).Nodup) (hmem : w ∈ l) :
    l.filter (workoutMatch w.id w.userId) = [w] := by
  induction l with
  | nil => cases hmem
  | cons x xs ih =>
    have hnd := hnodup
    rw [List.map_cons, List.nodup_cons] at hnd
    rcases List.mem_cons.mp hmem with hxw | hxs
    · subst hxw
      rw [List.filter_cons_of_pos (by simp [workoutMatch])]
      have hnil : xs.filter (workoutMatch w.id w.userId) = [] := by
        rw [List.filter_eq_nil_iff]
        intro r hr h
        simp only [workoutMatch, Bool.and_eq_true, beq_iff_eq] at h
        exact hnd.1 (h.1 ▸ List.mem_map_of_mem (fun w => w.id) hr)
      rw [hnil]
    · have hxne : ¬ workoutMatch w.id w.userId x = true := by
        simp only [workoutMatch, Bool.and_eq_true, beq_iff_eq]
        rintro ⟨h1, -⟩
        exact hnd.1 (by rw [h1]; exact List.mem_map_of_mem (fun w => w.id) hxs)
      rw [List.filter_cons_of_neg hxne]
      exact ih hnd.2 hxs

/-- If no row satisfies the combined condition, `findFirst` yields `undefined`. -/
lemma getUserWorkout_no_match (wid uid : String) (s : Store)
    (h : ∀ r ∈ s.workouts, workoutMatch wid uid r = false) :
    getUserWorkout wid uid s = none := by
  unfold getUserWorkout
  have hfind : s.workouts.find? (workoutMatch wid uid) = none := by
    rw [List.find?_eq_none]
    intro x hx
    simp [h x hx]
  rw [hfind]
  rfl

/-- If no row satisfies the combined condition, the update statement touches no
row: it returns `undefined` and leaves the store unchanged. -/
lemma updateWorkout_no_match (wid : String) (p : WorkoutPatch) (uid : String)
    (now : Int) (s : Store)
    (h : ∀ r ∈ s.workouts, workoutMatch wid uid r = false) :
    updateWorkout wid p uid now s = (none, s) := by
  unfold updateWorkout
  have hfil : s.workouts.filter (workoutMatch wid uid) = [] := by
    rw [List.filter_eq_nil_iff]
    intro a ha
    simp [h a ha]
  have hmap : s.workouts.map
      (fun w => if workoutMatch wid uid w then applySet p now w else w) = s.workouts := by
    rw [List.map_congr_left (g := id) (fun a ha => by simp [h a ha]), List.map_id]
  rw [hfil, hmap]
  rfl

/-- C1 (ownership isolation): for a workout `w` owned by `A` and any user
`B ≠ A`, `getUserWorkout(w.id, B)` is not-found, `updateWorkout(w.id, p, B)`
returns not-found and updates no row, and both observations coincide with the
ones `B` would make on a store in which `w` does not exist at all —
authorization failure and non-existence are indistinguishable. -/
theorem ownership_isolation (s : Store) (w : Workout) (A B : String)
    (p : WorkoutPatch) (now : Int)
    (hmem : w ∈ s.workouts) (hown : w.userId = A) (hne : B ≠ A)
    (hnodup : (s.workouts.map (fun w => w.id)).Nodup) :
    getUserWorkout w.id B s = none ∧
    (updateWorkout w.id p B now s).1 = none ∧
    (updateWorkout w.id p B now s).2 = s ∧
    getUserWorkout w.id B { s with workouts := s.workouts.erase w } =
      getUserWorkout w.id B s ∧
    (updateWorkout w.id p B now { s with workouts := s.workouts.erase w }).1 =
      (updateWorkout w.id p B now s).1 := by
  have hfalse : ∀ r ∈ s.workouts, workoutMatch w.id B r = false :=
    fun r hr => workoutMatch_false_of_other_user hnodup hmem hown hne hr
  have hfalse' :
      ∀ r ∈ ({ s with workouts := s.workouts.erase w } : Store).workouts,
        workoutMatch w.id B r = false :=
    fun r hr => hfalse r (List.mem_of_mem_erase hr)
  have h1 := getUserWorkout_no_match w.id B s hfalse
  have h1' := getUserWorkout_no_match w.id B _ hfalse'
  have h2 := updateWorkout_no_match w.id p B now s hfalse
  have h2' := updateWorkout_no_match w.id p B now _ hfalse'
  exact ⟨h1, by rw [h2], by rw [h2], by rw [h1, h1'], by rw [h2, h2']⟩

/-- A store with one workout owned by `"userA"`, used to instantiate the
theorems at concrete inputs. -/
def wA : Workout :=
  { id := "00000000-0000-4000-8000-000000000001"
    userId := "userA"
    name := some "Leg Day"
    startedAt := 100
    completedAt := none
    createdAt := 50
    updatedAt := 50 }

/-- Concrete store holding only `wA`. -/
def storeA : Store :=
  { workouts := [wA], exercises := [], workoutExercises := [], sets := [] }

/-- Concrete instance of `ownership_isolation`: user `"userB"` can neither see
nor update `"userA"`'s workout, and observes exactly what an empty store shows. -/
theorem ownership_isolation_witness :
    wA ∈ storeA.workouts ∧ ("userB" : String) ≠ "userA" ∧
    (getUserWorkout wA.id "userB" storeA = none ∧
     (updateWorkout wA.id {} "userB" 200 storeA).1 = none ∧
     (updateWorkout wA.id {} "userB" 200 storeA).2 = storeA ∧
     getUserWorkout wA.id "userB" { storeA with workouts := storeA.workouts.erase wA } =
       getUserWorkout wA.id "userB" storeA ∧
     (updateWorkout wA.id {} "userB" 200
         { storeA with workouts := storeA.workouts.erase wA }).1 =
       (updateWorkout wA.id {} "userB" 200 storeA).1) :=
  ⟨by decide, by decide,
    ownership_isolation storeA wA "userA" "userB" {} 200 (by decide) (by decide)
      (by decide) (by decide)⟩

/-- Updating an owned row: the returned row is the patched row, and the store
changes only by replacing that row in place. -/
lemma updateWorkout_owned (s : Store) (w : Workout) (uid : String)
    (p : WorkoutPatch) (now : Int)
    (hmem : w ∈ s.workouts) (hown : w.userId = uid)
    (hnodup : (s.workouts.map (fun w => w.id)).Nodup) :
    (updateWorkout w.id p uid now s).1 = some (applySet p now w) ∧
    (updateWorkout w.id p uid now s).2 =
      { s with workouts :=
          s.workouts.map (fun r => if r = w then applySet p now w else r) } := by
  subst hown
  have hfil : s.workouts.filter (workoutMatch w.id w.userId) = [w] :=
    filter_workoutMatch_self hnodup hmem
  constructor
  · show ((s.workouts.filter (workoutMatch w.id w.userId)).map (applySet p now)).head? = _
    rw [hfil]
    rfl
  · show ({ s with workouts := (s.workouts.map
        (fun r => if workoutMatch w.id w.userId r then applySet p now r else r)) } : Store) = _
    congr 1
    apply List.map_congr_left
    intro a ha
    by_cases haw : a = w
    · subst haw
      simp [workoutMatch]
    · have hfalse : ¬ workoutMatch w.id w.userId a = true := by
        simp only [workoutMatch, Bool.and_eq_true, beq_iff_eq]
        rintro ⟨h1, -⟩
        exact haw (row_eq_of_id_eq hnodup ha hmem h1)
      rw [if_neg hfalse, if_neg haw]

/-- C2 (partial update semantics): updating an owned workout changes exactly
the fields present in the patch, leaves `id`/`userId`/`createdAt` and every
absent field unchanged, always sets `updatedAt` to the current time (even for an
empty patch), returns the updated row, and replaces only that row in the store. -/
theorem partial_update_semantics (s : Store) (w : Workout) (uid : String)
    (p : WorkoutPatch) (now : Int)
    (hmem : w ∈ s.workouts) (hown : w.userId = uid)
    (hnodup : (s.workouts.map (fun w => w.id)).Nodup) :
    ∃ w', (updateWorkout w.id p uid now s).1 = some w' ∧
      (p.name = none → w'.name = w.name) ∧
      (∀ v, p.name = some v → w'.name = v) ∧
      (p.startedAt = none → w'.startedAt = w.startedAt) ∧
      (∀ v, p.startedAt = some v → w'.startedAt = v) ∧
      (p.completedAt = none → w'.completedAt = w.completedAt) ∧
      (∀ v, p.completedAt = some v → w'.completedAt = v) ∧
      w'.updatedAt = now ∧
      w'.id = w.id ∧ w'.userId = w.userId ∧ w'.createdAt = w.createdAt ∧
      (updateWorkout w.id p uid now s).2 =
        { s with workouts := s.workouts.map (fun r => if r = w then w' else r) } := by
  obtain ⟨h1, h2⟩ := updateWorkout_owned s w uid p now hmem hown hnodup
  refine ⟨applySet p now w, h1, ?_, ?_, ?_, ?_, ?_, ?_, rfl, rfl, rfl, rfl, h2⟩
  · intro h
    simp [applySet, h]
  · intro v h
    simp [applySet, h]
  · intro h
    simp [applySet, h]
  · intro v h
    simp [applySet, h]
  · intro h
    simp [applySet, h]
  · intro v h
    simp [applySet, h]

/-- Concrete instance of `partial_update_semantics` (the spec's P5 shape):
patching only `completedAt` keeps `name` and `startedAt`, sets `completedAt`,
and refreshes `updatedAt` past the original `createdAt`/`updatedAt`. -/
theorem partial_update_semantics_witness :
    wA ∈ storeA.workouts ∧ wA.userId = "userA" ∧
    ∃ w', (updateWorkout wA.id { completedAt := some (some 300) } "userA" 300 storeA).1 =
        some w' ∧
      w'.name = some "Leg Day" ∧ w'.startedAt = 100 ∧ w'.completedAt = some 300 ∧
      w'.updatedAt = 300 ∧ wA.createdAt < w'.updatedAt ∧ wA.updatedAt < w'.updatedAt := by
  refine ⟨by decide, by decide, ?_⟩
  obtain ⟨w', he, hn0, hn1, hs0, hs1, hc0, hc1, hu, hid, huid, hcr, hst⟩ :=
    partial_update_semantics storeA wA "userA" { completedAt := some (some 300) } 300
      (by decide) (by decide) (by decide)
  refine ⟨w', he, ?_, ?_, ?_, hu, ?_, ?_⟩
  · rw [hn0 rfl]
    decide
  · rw [hs0 rfl]
    decide
  · exact hc1 (some 300) rfl
  · rw [hu]
    decide
  · rw [hu]
    decide

/-- C3 (date filtering): `getUserWorkoutsByDate` returns exactly the
owner's workouts whose `startedAt` lies in the local calendar day
`[startOfDay, endOfDay]`, both endpoints inclusive, judged on `startedAt`, and
is literally `getUserWorkouts` restricted to that range (so in the same
descending-`startedAt` order). -/
theorem date_filtering (uid : String) (date : Int) (s : Store) :
    getUserWorkoutsByDate uid date s =
      (getUserWorkouts uid s).filter
        (fun wf => startOfDayMs date ≤ wf.workout.startedAt &&
                   wf.workout.startedAt ≤ endOfDayMs date) ∧
    ∀ wf, wf ∈ getUserWorkoutsByDate uid date s ↔
      (wf ∈ getUserWorkouts uid s ∧
       startOfDayMs date ≤ wf.workout.startedAt ∧
       wf.workout.startedAt ≤ endOfDayMs date) := by
  constructor
  · rfl
  · intro wf
    simp [getUserWorkoutsByDate, getUserWorkouts, List.mem_filter,
      Bool.and_eq_true, decide_eq_true_eq, and_assoc]

/-- C4 as amended (unauthenticated rejection): with no resolvable session the
two schema-validated gateway actions return the value
`{success:false, error:"Unauthorized"}`, while the dashboard's FormData
`createWorkoutAction` instead THROWS `Error("Unauthorized")`; in every case the
store is untouched and the result is input-independent (no validation and no
query-layer call happen). -/
theorem unauthenticated_rejected (inputC : CreateInput) (inputU : UpdateInput)
    (name dateStr : Option String) (parseDate : String → JSDate)
    (sf : Option String) (freshId : String) (now : Int) (s : Store) :
    createWorkoutAction none inputC sf freshId now s =
      (.failure "Unauthorized" none, s) ∧
    updateWorkoutAction none inputU sf now s =
      (.failure "Unauthorized" none, s) ∧
    dashboardCreateWorkoutAction none name dateStr parseDate freshId now s =
      (.error "Unauthorized", s) :=
  ⟨rfl, rfl, rfl⟩

/-- Counterexample to C4 as stated: the dashboard's FormData create gateway
operation, called with no session, THROWS `Error("Unauthorized")` (a `.error`
outcome in the embedding, where `.error` models a thrown exception) — it does
not return the `{success:false, error:"Unauthorized"}` result value the claim
asserts for every Mutation Gateway operation. -/
theorem unauthenticated_rejected_counterexample :
    (dashboardCreateWorkoutAction none (some "Leg Day") (some "2024-01-16")
        (fun _ => some 1705363200000) "w-1" 0 storeA).1 =
      Except.error "Unauthorized" ∧
    (dashboardCreateWorkoutAction none (some "Leg Day") (some "2024-01-16")
        (fun _ => some 1705363200000) "w-1" 0 storeA).2 = storeA :=
  ⟨rfl, rfl⟩

/-- C5 (create/get round trip): `createWorkout` inserts a row whose
`userId` is exactly the authenticated caller and whose `completedAt` is absent;
`getUserWorkout` on the returned id by the same caller then returns a row with
the same `name`, the same `startedAt`, and `completedAt` still absent. -/
theorem create_get_roundtrip (data : CreateData) (A freshId : String)
    (now : Int) (s : Store)
    (hfresh : freshId ∉ s.workouts.map (fun w => w.id)) :
    ((createWorkout data A freshId now s).1).userId = A ∧
    ((createWorkout data A freshId now s).1).completedAt = none ∧
    ∃ wf, getUserWorkout ((createWorkout data A freshId now s).1).id A
        ((createWorkout data A freshId now s).2) = some wf ∧
      wf.workout.name = data.name ∧
      wf.workout.startedAt = data.startedAt ∧
      wf.workout.completedAt = none := by
  refine ⟨rfl, rfl, ?_⟩
  have h1 : s.workouts.find? (workoutMatch freshId A) = none := by
    rw [List.find?_eq_none]
    intro x hx h
    simp only [workoutMatch, Bool.and_eq_true, beq_iff_eq] at h
    exact hfresh (h.1 ▸ List.mem_map_of_mem (fun w => w.id) hx)
  refine ⟨nestWorkout ((createWorkout data A freshId now s).2)
      ((createWorkout data A freshId now s).1), ?_, rfl, rfl, rfl⟩
  show (((s.workouts ++ [(createWorkout data A freshId now s).1]).find?
      (workoutMatch freshId A)).map
        (nestWorkout ((createWorkout data A freshId now s).2))) = _
  rw [List.find?_append, h1]
  simp [workoutMatch, createWorkout]

/-- A store with no rows at all. -/
def storeEmpty : Store :=
  { workouts := [], exercises := [], workoutExercises := [], sets := [] }

/-- Concrete instance of `create_get_roundtrip` (the spec's P2 shape). -/
theorem create_get_roundtrip_witness :
    ("w-1" : String) ∉ storeEmpty.workouts.map (fun w => w.id) ∧
    (((createWorkout ⟨some "Leg Day", 100⟩ "userA" "w-1" 50 storeEmpty).1).userId = "userA" ∧
     ((createWorkout ⟨some "Leg Day", 100⟩ "userA" "w-1" 50 storeEmpty).1).completedAt = none ∧
     ∃ wf, getUserWorkout ((createWorkout ⟨some "Leg Day", 100⟩ "userA" "w-1" 50 storeEmpty).1).id
         "userA" ((createWorkout ⟨some "Leg Day", 100⟩ "userA" "w-1" 50 storeEmpty).2) = some wf ∧
       wf.workout.name = some "Leg Day" ∧
       wf.workout.startedAt = 100 ∧
       wf.workout.completedAt = none) :=
  ⟨by decide,
    create_get_roundtrip ⟨some "Leg Day", 100⟩ "userA" "w-1" 50 storeEmpty (by decide)⟩

/-- The nested tree of any fetched workout is ordered: exercise rows ascending
by `order`, set rows ascending by `setNumber`, whatever the store's insertion
sequence. -/
lemma nestWorkout_ordered (s : Store) (w : Workout) :
    (nestWorkout s w).workoutExercises.Pairwise (fun a b => a.we.order ≤ b.we.order) ∧
    ∀ ef ∈ (nestWorkout s w).workoutExercises,
      ef.sets.Pairwise (fun a b => a.setNumber ≤ b.setNumber) := by
  constructor
  · unfold nestWorkout
    rw [List.pairwise_map]
    exact List.sorted_insertionSort weAsc _
  · intro ef hef
    simp only [nestWorkout, List.mem_map] at hef
    obtain ⟨we, hwe, rfl⟩ := hef
    exact List.sorted_insertionSort setAsc _

/-- C6 (nested-fetch ordering): `getUserWorkouts` returns the top-level
workouts sorted descending by `startedAt`, every workout's exercise children
sorted ascending by `order`, and every exercise's set children sorted ascending
by `setNumber`; `getUserWorkout` orders its nested children the same way.  The
store (hence the insertion sequence of the rows) is arbitrary. -/
theorem nested_fetch_ordering (uid wid : String) (s : Store) :
    (getUserWorkouts uid s).Pairwise
      (fun a b => b.workout.startedAt ≤ a.workout.startedAt) ∧
    (∀ wf ∈ getUserWorkouts uid s,
      wf.workoutExercises.Pairwise (fun a b => a.we.order ≤ b.we.order) ∧
      ∀ ef ∈ wf.workoutExercises,
        ef.sets.Pairwise (fun a b => a.setNumber ≤ b.setNumber)) ∧
    (∀ wf, getUserWorkout wid uid s = some wf →
      wf.workoutExercises.Pairwise (fun a b => a.we.order ≤ b.we.order) ∧
      ∀ ef ∈ wf.workoutExercises,
        ef.sets.Pairwise (fun a b => a.setNumber ≤ b.setNumber)) := by
  refine ⟨?_, ?_, ?_⟩
  · unfold getUserWorkouts
    rw [List.pairwise_map]
    exact List.sorted_insertionSort workoutDesc _
  · intro wf hwf
    simp only [getUserWorkouts, List.mem_map] at hwf
    obtain ⟨w, hw, rfl⟩ := hwf
    exact nestWorkout_ordered s w
  · intro wf hwf
    simp only [getUserWorkout, Option.map_eq_some'] at hwf
    obtain ⟨w, hw, rfl⟩ := hwf
    exact nestWorkout_ordered s w

/-- Exercise catalog row used by the concrete stores. -/
def exA : Exercise :=
  { id := "e1", userId := "userA", name := "Bench Press", createdAt := 1, updatedAt := 1 }

/-- A workout-exercise row of `wA` at the given position. -/
def mkWe (i : String) (ord : Int) : WorkoutExercise :=
  { id := i, workoutId := wA.id, exerciseId := "e1", order := ord,
    createdAt := 1, updatedAt := 1 }

/-- A set row with the given set number. -/
def mkSet (i weId : String) (n : Int) : SetRow :=
  { id := i, workoutExerciseId := weId, setNumber := n, reps := some 8,
    weight := some 10000, createdAt := 1, updatedAt := 1 }

/-- The spec's P3 store: exercise rows inserted with `order` 2, 0, 1 (in that
sequence), each holding sets inserted with `setNumber` 3, 1, 2. -/
def storeP3 : Store :=
  { workouts := [wA]
    exercises := [exA]
    workoutExercises := [mkWe "we2" 2, mkWe "we0" 0, mkWe "we1" 1]
    sets := [mkSet "a3" "we2" 3, mkSet "a1" "we2" 1, mkSet "a2" "we2" 2,
             mkSet "b3" "we0" 3, mkSet "b1" "we0" 1, mkSet "b2" "we0" 2,
             mkSet "c3" "we1" 3, mkSet "c1" "we1" 1, mkSet "c2" "we1" 2] }

/-- Concrete instance of `nested_fetch_ordering` at the P3 store: despite the
scrambled insertion sequence, `getUserWorkout` yields exercises in order
0, 1, 2 and set numbers 1, 2, 3 within each. -/
theorem nested_fetch_ordering_witness :
    getUserWorkout wA.id "userA" storeP3 = some (nestWorkout storeP3 wA) ∧
    ((nestWorkout storeP3 wA).workoutExercises.Pairwise
        (fun a b => a.we.order ≤ b.we.order) ∧
      ∀ ef ∈ (nestWorkout storeP3 wA).workoutExercises,
        ef.sets.Pairwise (fun a b => a.setNumber ≤ b.setNumber)) ∧
    (nestWorkout storeP3 wA).workoutExercises.map (fun ef => ef.we.order) =
      [0, 1, 2] ∧
    (nestWorkout storeP3 wA).workoutExercises.map
        (fun ef => ef.sets.map (fun st => st.setNumber)) =
      [[1, 2, 3], [1, 2, 3], [1, 2, 3]] :=
  ⟨by decide,
    (nested_fetch_ordering "userA" wA.id storeP3).2.2 _ (by decide),
    by decide, by decide⟩

/-- When validation fails, `safeParse` reports an error for `createWorkoutSchema`. -/
lemma createWorkoutSchemaParse_error (input : CreateInput)
    (h : (∃ nm, input.name = some nm ∧ (nm.length < 1 ∨ 100 < nm.length)) ∨
      input.startedAt = none) :
    ∃ d, createWorkoutSchemaParse input = .error d := by
  unfold createWorkoutSchemaParse
  cases hstart : input.startedAt with
  | none => exact ⟨_, rfl⟩
  | some t =>
    cases hni : nameIssues input.name with
    | cons a as => exact ⟨_, rfl⟩
    | nil =>
      exfalso
      rcases h with ⟨nm, hnm, hlen⟩ | hstart'
      · rw [hnm] at hni
        unfold nameIssues at hni
        rcases hlen with h1 | h1
        · simp [h1] at hni
        · simp [h1, Nat.lt_asymm h1] at hni
      · rw [hstart] at hstart'
        exact Option.noConfusion hstart'

/-- C7 (invalid-input rejection): an authenticated gateway call whose input
fails structural validation — empty or over-100-character non-null `name`
(either action), invalid `startedAt` timestamp (either action), invalid
non-null `completedAt` timestamp (update), or a `workoutId` that is not a
syntactically valid uuid (update) — returns
`{success:false, error:"Invalid input"}` with field-level details and leaves
the store untouched (the query layer is never invoked). -/
theorem invalid_input_rejected :
    (∀ (uid : String) (input : CreateInput) (sf : Option String)
        (freshId : String) (now : Int) (s : Store),
      ((∃ nm, input.name = some nm ∧ (nm.length < 1 ∨ 100 < nm.length)) ∨
        input.startedAt = none) →
      ∃ d, createWorkoutAction (some uid) input sf freshId now s =
        (.failure "Invalid input" (some d), s)) ∧
    (∀ (uid : String) (input : UpdateInput) (sf : Option String)
        (now : Int) (s : Store),
      (isUuid input.workoutId = false ∨
       (∃ nm, input.name = some (some nm) ∧ (nm.length < 1 ∨ 100 < nm.length)) ∨
       input.startedAt = some none ∨
       input.completedAt = some (some none)) →
      ∃ d, updateWorkoutAction (some uid) input sf now s =
        (.failure "Invalid input" (some d), s)) := by
  constructor
  · intro uid input sf freshId now s h
    obtain ⟨d, hd⟩ := createWorkoutSchemaParse_error input h
    refine ⟨d, ?_⟩
    unfold createWorkoutAction
    rw [hd]
  · intro uid input sf now s h
    have herr : ∃ d, updateWorkoutSchemaParse input = .error d := by
      unfold updateWorkoutSchemaParse
      rcases h with h | ⟨nm, hnm, hlen⟩ | h | h
      · simp [h]
      · rcases hlen with h1 | h1
        · simp [hnm, nameIssues, h1]
        · have h2 : ¬ nm.length < 1 := by omega
          simp [hnm, nameIssues, h1, h2]
      · simp [h]
      · simp [h]
    obtain ⟨d, hd⟩ := herr
    refine ⟨d, ?_⟩
    unfold updateWorkoutAction
    rw [hd]

/-- Concrete instance of `invalid_input_rejected`: an empty name with an
invalid start date is rejected by the create gateway; a malformed `workoutId`,
and — behind a well-formed uuid — an invalid `startedAt`, an invalid non-null
`completedAt`, and an empty name are each rejected by the update gateway, with
no row created or updated. -/
theorem invalid_input_rejected_witness :
    (({ name := some "", startedAt := none } : CreateInput).startedAt = none ∧
     ∃ d, createWorkoutAction (some "userA") { name := some "", startedAt := none }
         none "w-9" 0 storeEmpty = (.failure "Invalid input" (some d), storeEmpty)) ∧
    (isUuid "not-a-uuid" = false ∧
     ∃ d, updateWorkoutAction (some "userA") { workoutId := "not-a-uuid" }
         none 0 storeEmpty = (.failure "Invalid input" (some d), storeEmpty)) ∧
    (isUuid wA.id = true ∧
     (∃ d, updateWorkoutAction (some "userA") { workoutId := wA.id, startedAt := some none }
         none 0 storeEmpty = (.failure "Invalid input" (some d), storeEmpty)) ∧
     (∃ d, updateWorkoutAction (some "userA")
         { workoutId := wA.id, completedAt := some (some none) }
         none 0 storeEmpty = (.failure "Invalid input" (some d), storeEmpty)) ∧
     (∃ d, updateWorkoutAction (some "userA") { workoutId := wA.id, name := some (some "") }
         none 0 storeEmpty = (.failure "Invalid input" (some d), storeEmpty))) :=
  ⟨⟨rfl, invalid_input_rejected.1 "userA" { name := some "", startedAt := none }
      none "w-9" 0 storeEmpty (Or.inr rfl)⟩,
   ⟨by decide, invalid_input_rejected.2 "userA" { workoutId := "not-a-uuid" }
      none 0 storeEmpty (Or.inl (by decide))⟩,
   ⟨by decide,
    invalid_input_rejected.2 "userA" { workoutId := wA.id, startedAt := some none }
      none 0 storeEmpty (Or.inr (Or.inr (Or.inl rfl))),
    invalid_input_rejected.2 "userA" { workoutId := wA.id, completedAt := some (some none) }
      none 0 storeEmpty (Or.inr (Or.inr (Or.inr rfl))),
    invalid_input_rejected.2 "userA" { workoutId := wA.id, name := some (some "") }
      none 0 storeEmpty (Or.inr (Or.inl ⟨"", rfl, Or.inl (by decide)⟩))⟩⟩

/-- An update statement that returned no row touched no row: the store is
unchanged. -/
lemma updateWorkout_none_store (wid : String) (p : WorkoutPatch) (uid : String)
    (now : Int) (s : Store)
    (h : (updateWorkout wid p uid now s).1 = none) :
    (updateWorkout wid p uid now s).2 = s := by
  have hfil : s.workouts.filter (workoutMatch wid uid) = [] := by
    have h' : ((s.workouts.filter (workoutMatch wid uid)).map
        (applySet p now)).head? = none := h
    rw [List.head?_eq_none_iff, List.map_eq_nil_iff] at h'
    exact h'
  have hall := List.filter_eq_nil_iff.mp hfil
  have hfalse : ∀ r ∈ s.workouts, workoutMatch wid uid r = false := by
    intro r hr
    cases hc : workoutMatch wid uid r with
    | false => rfl
    | true => exact absurd hc (hall r hr)
  have := updateWorkout_no_match wid p uid now s hfalse
  rw [this]

/-- C8 (storage-failure containment): when the storage layer throws, each
gateway catches it and returns its fixed generic failure value — the raw
message `msg` never appears in the result; a query-layer "not found" is
surfaced as the returned not-found/no-permission value with the store
untouched, never as a thrown exception. -/
theorem storage_failure_contained :
    (∀ (uid msg : String) (input : CreateInput) (freshId : String) (now : Int)
        (s : Store) (d : CreateData),
      createWorkoutSchemaParse input = .ok d →
      createWorkoutAction (some uid) input (some msg) freshId now s =
        (.failure "Failed to create workout" none, s)) ∧
    (∀ (uid msg : String) (input : UpdateInput) (now : Int) (s : Store)
        (d : UpdateData),
      updateWorkoutSchemaParse input = .ok d →
      updateWorkoutAction (some uid) input (some msg) now s =
        (.failure "Failed to update workout" none, s)) ∧
    (∀ (uid : String) (input : UpdateInput) (now : Int) (s : Store)
        (d : UpdateData),
      updateWorkoutSchemaParse input = .ok d →
      (updateWorkout d.workoutId (patchOf d) uid now s).1 = none →
      updateWorkoutAction (some uid) input none now s =
        (.failure "Workout not found or you do not have permission to edit it" none, s)) := by
  refine ⟨?_, ?_, ?_⟩
  · intro uid msg input freshId now s d hd
    unfold createWorkoutAction
    rw [hd]
  · intro uid msg input now s d hd
    unfold updateWorkoutAction
    rw [hd]
  · intro uid input now s d hd hnone
    have hstore := updateWorkout_none_store d.workoutId (patchOf d) uid now s hnone
    simp only [updateWorkoutAction, hd]
    rw [hnone, hstore]

/-- Concrete instance of `storage_failure_contained`: a raw storage message
never reaches the caller, and a miss is a returned value. -/
theorem storage_failure_contained_witness :
    (createWorkoutSchemaParse { name := some "Leg Day", startedAt := some 100 } =
        .ok { name := some "Leg Day", startedAt := 100 } ∧
     createWorkoutAction (some "userA") { name := some "Leg Day", startedAt := some 100 }
        (some "ECONNREFUSED 10.0.0.7:5432") "w-1" 0 storeEmpty =
        (.failure "Failed to create workout" none, storeEmpty)) ∧
    (updateWorkoutSchemaParse { workoutId := wA.id } =
        .ok { workoutId := wA.id, name := none, startedAt := none, completedAt := none } ∧
     updateWorkoutAction (some "userA") { workoutId := wA.id }
        (some "ECONNREFUSED 10.0.0.7:5432") 0 storeEmpty =
        (.failure "Failed to update workout" none, storeEmpty)) ∧
    updateWorkoutAction (some "userA") { workoutId := wA.id } none 0 storeEmpty =
      (.failure "Workout not found or you do not have permission to edit it" none,
       storeEmpty) :=
  ⟨⟨rfl,
    storage_failure_contained.1 "userA" "ECONNREFUSED 10.0.0.7:5432"
      { name := some "Leg Day", startedAt := some 100 } "w-1" 0 storeEmpty
      { name := some "Leg Day", startedAt := 100 } rfl⟩,
   ⟨rfl,
    storage_failure_contained.2.1 "userA" "ECONNREFUSED 10.0.0.7:5432"
      { workoutId := wA.id } 0 storeEmpty
      { workoutId := wA.id, name := none, startedAt := none, completedAt := none }
      rfl⟩,
   storage_failure_contained.2.2 "userA" { workoutId := wA.id } 0 storeEmpty
      { workoutId := wA.id, name := none, startedAt := none, completedAt := none }
      rfl (by decide)⟩

/-- C9 (permissive Completed to InProgress transition): for an owned workout
whose `completedAt` is set, the full update path accepts a patch whose
`completedAt` is explicitly null, succeeds, and the resulting row has
`completedAt` absent again — no guard in the gateway or the query layer
prevents the transition. -/
theorem completed_to_inprogress (s : Store) (w : Workout) (uid : String)
    (now t : Int)
    (hmem : w ∈ s.workouts) (hown : w.userId = uid)
    (hnodup : (s.workouts.map (fun w => w.id)).Nodup)
    (hcomp : w.completedAt = some t) (hid : isUuid w.id = true) :
    ∃ w' s', updateWorkoutAction (some uid)
        { workoutId := w.id, completedAt := some none } none now s =
        (.success w', s') ∧
      w'.completedAt = none ∧ w'.id = w.id ∧ w' ∈ s'.workouts := by
  have hparse : updateWorkoutSchemaParse
      { workoutId := w.id, completedAt := some none } =
      .ok ⟨w.id, none, none, some none⟩ := by
    unfold updateWorkoutSchemaParse
    simp [hid]
  obtain ⟨h1, h2⟩ := updateWorkout_owned s w uid
    (patchOf ⟨w.id, none, none, some none⟩) now hmem hown hnodup
  refine ⟨applySet (patchOf ⟨w.id, none, none, some none⟩) now w,
    (updateWorkout w.id (patchOf ⟨w.id, none, none, some none⟩) uid now s).2,
    ?_, rfl, rfl, ?_⟩
  · simp only [updateWorkoutAction, hparse]
    rw [h1]
  · rw [h2]
    have hw := List.mem_map_of_mem
      (fun r => if r = w then applySet (patchOf ⟨w.id, none, none, some none⟩) now w else r)
      hmem
    simpa using hw

/-- A completed workout owned by `"userA"`, and a store holding only it. -/
def wC : Workout :=
  { id := "11111111-1111-4111-8111-111111111111"
    userId := "userA"
    name := none
    startedAt := 100
    completedAt := some 200
    createdAt := 50
    updatedAt := 50 }

/-- Store holding only the completed workout `wC`. -/
def storeC : Store :=
  { workouts := [wC], exercises := [], workoutExercises := [], sets := [] }

/-- Concrete instance of `completed_to_inprogress`: clearing `completedAt` of a
completed workout through the gateway succeeds and re-opens the workout. -/
theorem completed_to_inprogress_witness :
    wC ∈ storeC.workouts ∧ wC.completedAt = some 200 ∧ isUuid wC.id = true ∧
    ∃ w' s', updateWorkoutAction (some "userA")
        { workoutId := wC.id, completedAt := some none } none 300 storeC =
        (.success w', s') ∧
      w'.completedAt = none ∧ w'.id = wC.id ∧ w' ∈ s'.workouts :=
  ⟨by decide, rfl, by decide,
    completed_to_inprogress storeC wC "userA" 300 200 (by decide) rfl (by decide)
      rfl (by decide)⟩

/-- C10 (identity-field immutability under update): the validation schema
strips unknown keys, so smuggled `userId`/`id` fields never influence the
outcome, and the update path preserves `id`, `userId` and `createdAt` of every
row of the store — ownership can never be reassigned through the update path. -/
theorem identity_immutability :
    (∀ (sess : Option String) (input : UpdateInput) (x y sf : Option String)
        (now : Int) (s : Store),
      updateWorkoutAction sess { input with extraUserId := x, extraId := y } sf now s =
        updateWorkoutAction sess input sf now s) ∧
    (∀ (sess : Option String) (input : UpdateInput) (sf : Option String)
        (now : Int) (s : Store),
      List.Forall₂
        (fun r r' => r'.id = r.id ∧ r'.userId = r.userId ∧ r'.createdAt = r.createdAt)
        s.workouts ((updateWorkoutAction sess input sf now s).2).workouts) := by
  constructor
  · intro sess input x y sf now s
    rfl
  · intro sess input sf now s
    have base : ∀ l : List Workout,
        List.Forall₂ (fun r r' => r'.id = r.id ∧ r'.userId = r.userId ∧
          r'.createdAt = r.createdAt) l l :=
      fun l => List.forall₂_same.mpr (fun x _ => ⟨rfl, rfl, rfl⟩)
    cases sess with
    | none => exact base s.workouts
    | some uid =>
      cases hp : updateWorkoutSchemaParse input with
      | error d =>
        simp only [updateWorkoutAction, hp]
        exact base s.workouts
      | ok d =>
        have hmap : List.Forall₂
            (fun r r' => r'.id = r.id ∧ r'.userId = r.userId ∧
              r'.createdAt = r.createdAt)
            s.workouts
            (s.workouts.map (fun w => if workoutMatch d.workoutId uid w
              then applySet (patchOf d) now w else w)) := by
          rw [List.forall₂_map_right_iff]
          apply List.forall₂_same.mpr
          intro x hx
          by_cases hc : workoutMatch d.workoutId uid x = true
          · rw [if_pos hc]
            exact ⟨rfl, rfl, rfl⟩
          · rw [if_neg hc]
            exact ⟨rfl, rfl, rfl⟩
        cases sf with
        | some msg =>
          simp only [updateWorkoutAction, hp]
          exact base s.workouts
        | none =>
          simp only [updateWorkoutAction, hp]
          cases hr : (updateWorkout d.workoutId (patchOf d) uid now s).1 with
          | none => exact hmap
          | some w => exact hmap
